import Mathlib

/-!
Verification of the GIN convolution layers of the spektral repository
(`spektral/layers/convolutional/gin_conv.py`) against its design
specification.  The numeric tensors of the source (float arrays) are
shallowly embedded as functions `Fin n → Fin d → ℚ`; a sparse adjacency
matrix is embedded as its list of (row, column) index pairs.
-/

/-- A dense (fully connected) transform, embedding a built
`tensorflow.keras.layers.Dense` layer: an input vector `v` is mapped to
`activation (v ⬝ kernel + bias)`, the bias being added only when
`use_bias` is set.  Mirrors the layers added in `GINConv.build`
(gin_conv.py lines 109-118). -/
structure DenseLayer (din dout : ℕ) where
  kernel : Fin din → Fin dout → ℚ
  bias : Fin dout → ℚ
  use_bias : Bool
  activation : ℚ → ℚ

/-- Forward application of a dense layer to one feature row. -/
def DenseLayer.apply {din dout : ℕ} (l : DenseLayer din dout)
    (v : Fin din → ℚ) : Fin dout → ℚ :=
  fun k => l.activation ((∑ j, v j * l.kernel j k) +
    (if l.use_bias then l.bias k else 0))

/-- A built `BatchNormalization` step in inference form: an elementwise
affine map per feature.  A freshly built batch-normalization layer has
`scale = 1` and `shift = 0`. -/
structure BatchNorm (d : ℕ) where
  scale : Fin d → ℚ
  shift : Fin d → ℚ

/-- Forward application of a batch-normalization step to one row. -/
def BatchNorm.apply {d : ℕ} (b : BatchNorm d) (v : Fin d → ℚ) : Fin d → ℚ :=
  fun k => b.scale k * v k + b.shift k

/-- The update MLP built by `GINConv.build`: a chain of hidden dense
layers, each optionally followed by batch normalization, ending in one
output dense layer (gin_conv.py lines 109-118). -/
inductive MLP : ℕ → ℕ → Type where
  | output {din dout : ℕ} (l : DenseLayer din dout) : MLP din dout
  | hidden {din h dout : ℕ} (l : DenseLayer din h) (bn : Option (BatchNorm h))
      (rest : MLP h dout) : MLP din dout

/-- Forward application of the MLP to one feature row. -/
def MLP.apply {din dout : ℕ} : MLP din dout → (Fin din → ℚ) → Fin dout → ℚ
  | .output l, v => l.apply v
  | .hidden l bn rest, v =>
      rest.apply (match bn with
        | some b => b.apply (l.apply v)
        | none => l.apply v)

/-- Modelled from the spec: `MessagePassing.propagate` of
`spektral/layers/convolutional/message_passing.py` is not under `src/`.
Per spec §4.1 the default message for an adjacency entry is the neighbor
node's feature vector and the default aggregation is the sum of all
messages destined for a node, a node with no incident entries receiving
the sum's identity (zero).  The convention fixed by the spec's concrete
scenario (§8) and by the in-source dense path `GINConvBatch.call` is
that the sparse entry `(i, j)` contributes feature `j` to node `i`, so
that the aggregated tensor equals `A ⬝ x`. -/
def propagate {n d : ℕ} (x : Fin n → Fin d → ℚ)
    (edges : List (Fin n × Fin n)) : Fin n → Fin d → ℚ :=
  fun i k => ((edges.filter (fun e => e.1 = i)).map (fun e => x e.2 k)).sum

/-- Modelled from the spec: `ops.modal_dot` of `spektral/layers/ops` is
not under `src/`.  In single-graph mode it is the plain matrix product
of the dense adjacency with the node-feature tensor. -/
def modal_dot {n d : ℕ} (a : Fin n → Fin n → ℚ)
    (x : Fin n → Fin d → ℚ) : Fin n → Fin d → ℚ :=
  fun i k => ∑ j, a i j * x j k

/-- A `GINConv` layer in the built state: the update MLP allocated by
`build` and the current value of the `eps` scalar (either the learned
weight's value or the fixed constant, cf. gin_conv.py lines 120-125). -/
structure GINConvBuilt (din c : ℕ) where
  mlp : MLP din c
  eps : ℚ

/-- Forward pass of `GINConv.call` (gin_conv.py lines 129-133):
`output = mlp ((1 + eps) * x + propagate x a)`, the MLP acting row-wise. -/
def GINConv.call {n din c : ℕ} (g : GINConvBuilt din c)
    (x : Fin n → Fin din → ℚ) (edges : List (Fin n × Fin n)) :
    Fin n → Fin c → ℚ :=
  fun i => g.mlp.apply (fun k => (1 + g.eps) * x i k + propagate x edges i k)

/-- Forward pass of `GINConvBatch.call` (gin_conv.py lines 155-159) on a
single dense adjacency: `output = mlp ((1 + eps) * x + modal_dot a x)`. -/
def GINConvBatch.call {n din c : ℕ} (g : GINConvBuilt din c)
    (x : Fin n → Fin din → ℚ) (a : Fin n → Fin n → ℚ) :
    Fin n → Fin c → ℚ :=
  fun i => g.mlp.apply (fun k => (1 + g.eps) * x i k + modal_dot a x i k)

/-- The set of neighbors of node `i` listed by a sparse adjacency: the
column indices of the entries whose row is `i`. -/
def neighborFinset {n : ℕ} (edges : List (Fin n × Fin n)) (i : Fin n) :
    Finset (Fin n) :=
  ((edges.filter (fun e => e.1 = i)).map Prod.snd).toFinset

/-- A dense layer whose forward application is the identity: identity
kernel, no bias, linear activation. -/
def idDense (d : ℕ) : DenseLayer d d :=
  ⟨fun j k => if j = k then 1 else 0, fun _ => 0, false, fun t => t⟩

/-- An update MLP whose forward application is the identity transform. -/
def idMLP (d : ℕ) : MLP d d := .output (idDense d)

/-- The built layer of the spec's concrete scenario: identity update
transform and `epsilon = 0`. -/
def scenarioLayer : GINConvBuilt 3 3 := ⟨idMLP 3, 0⟩

/-- The sparse adjacency of the spec's concrete scenario on 5 nodes:
entries (0,1), (1,0), (1,2), (3,3). -/
def scenarioEdges : List (Fin 5 × Fin 5) := [(0, 1), (1, 0), (1, 2), (3, 3)]

/-- A resolved activation object, as stored after a lookup through the
host framework's activation registry. -/
inductive ActFun where
  | resolved (nm : String)
deriving DecidableEq

/-- An activation constructor argument: absent (the linear activation),
a name, or an already resolved activation object. -/
inductive ActArg where
  | absent
  | name (s : String)
  | fn (f : ActFun)
deriving DecidableEq

/-- Modelled from the spec: the host framework's `activations.get`
(external collaborator, §6) resolves a name to its activation object,
passes a resolved object through unchanged, and maps an absent argument
to the linear activation. -/
def activationsGet : ActArg → ActFun
  | .absent => .resolved "linear"
  | .name s => .resolved s
  | .fn f => f

/-- The constructor arguments of `GINConv.__init__` (gin_conv.py lines
60-78) with their default values. -/
structure GINArgs where
  channels : ℕ
  epsilon : Option ℚ := none
  mlp_hidden : Option (List ℕ) := none
  mlp_activation : ActArg := .name "relu"
  mlp_batchnorm : Bool := true
  aggregate : String := "sum"
  activation : ActArg := .absent
  use_bias : Bool := true
  kernel_initializer : String := "glorot_uniform"
  bias_initializer : String := "zeros"
  kernel_regularizer : Option String := none
  bias_regularizer : Option String := none
  activity_regularizer : Option String := none
  kernel_constraint : Option String := none
  bias_constraint : Option String := none
deriving DecidableEq

/-- The attributes a `GINConv` instance stores (gin_conv.py lines 79-96
together with the base-class keyword handling): `mlp_hidden` is
normalized to the empty list when absent or empty (the source's
`mlp_hidden if mlp_hidden else []`), and the activation arguments are
resolved through the activation registry. -/
structure GINAttrs where
  channels : ℕ
  epsilon : Option ℚ
  mlp_hidden : List ℕ
  mlp_activation : ActFun
  mlp_batchnorm : Bool
  aggregate : String
  activation : ActFun
  use_bias : Bool
  kernel_initializer : String
  bias_initializer : String
  kernel_regularizer : Option String
  bias_regularizer : Option String
  activity_regularizer : Option String
  kernel_constraint : Option String
  bias_constraint : Option String
deriving DecidableEq

/-- `GINConv.__init__`: store the constructor arguments as attributes. -/
def GINConv.init (a : GINArgs) : GINAttrs where
  channels := a.channels
  epsilon := a.epsilon
  mlp_hidden := match a.mlp_hidden with
    | none => []
    | some l => if l.isEmpty then [] else l
  mlp_activation := activationsGet a.mlp_activation
  mlp_batchnorm := a.mlp_batchnorm
  aggregate := a.aggregate
  activation := activationsGet a.activation
  use_bias := a.use_bias
  kernel_initializer := a.kernel_initializer
  bias_initializer := a.bias_initializer
  kernel_regularizer := a.kernel_regularizer
  bias_regularizer := a.bias_regularizer
  activity_regularizer := a.activity_regularizer
  kernel_constraint := a.kernel_constraint
  bias_constraint := a.bias_constraint

/-- The mapping returned by the `config` property (gin_conv.py lines
135-143): exactly the five GIN-specific entries. -/
structure GINConfig where
  channels : ℕ
  epsilon : Option ℚ
  mlp_hidden : List ℕ
  mlp_activation : ActFun
  mlp_batchnorm : Bool
deriving DecidableEq

/-- The `config` property of a `GINConv` instance. -/
def GINConv.config (v : GINAttrs) : GINConfig :=
  ⟨v.channels, v.epsilon, v.mlp_hidden, v.mlp_activation, v.mlp_batchnorm⟩

/-- Reconstruction of an instance from a config mapping: call the
constructor with the mapping's entries, every other argument taking its
default value. -/
def reconstruct (c : GINConfig) : GINAttrs :=
  GINConv.init
    { channels := c.channels
      epsilon := c.epsilon
      mlp_hidden := some c.mlp_hidden
      mlp_activation := .fn c.mlp_activation
      mlp_batchnorm := c.mlp_batchnorm }

/-- One layer added to the Sequential update MLP by `GINConv.build`. -/
inductive MLPLayerSpec where
  | dense (units : ℕ) (activation : ActFun) (use_bias : Bool)
  | batchnorm
deriving DecidableEq

/-- The sequence of layers `GINConv.build` adds to `self.mlp`
(gin_conv.py lines 109-118): for each entry of `mlp_hidden`, a dense
layer with `mlp_activation` (and the framework's default bias), followed
by a batch-normalization step when `mlp_batchnorm` is set; then the
output dense layer with `channels`, the layer's activation and the
configured `use_bias`. -/
def buildMLPSpec (v : GINAttrs) : List MLPLayerSpec :=
  (v.mlp_hidden.foldl (fun acc h =>
      let acc2 := acc ++ [MLPLayerSpec.dense h v.mlp_activation true]
      if v.mlp_batchnorm then acc2 ++ [MLPLayerSpec.batchnorm] else acc2) [])
    ++ [MLPLayerSpec.dense v.channels v.activation v.use_bias]

/-- The `eps` attribute allocated by `GINConv.build` (gin_conv.py lines
120-125): a learned scalar weight when `epsilon` is absent, otherwise
the given value kept as a fixed constant. -/
inductive EpsParam where
  | learned (value : ℚ)
  | fixed (value : ℚ)
deriving DecidableEq

/-- Allocation of `eps` at build time; the learned weight starts at the
value produced by its zeros initializer. -/
def buildEps : Option ℚ → EpsParam
  | none => .learned 0
  | some v => .fixed v

/-- The scalar value `eps` contributes to a forward call. -/
def EpsParam.value : EpsParam → ℚ
  | .learned v => v
  | .fixed v => v

/-- `GINConv.build` (gin_conv.py lines 98-127) observed at the level of
shapes and allocations: the assertion on line 99 requires the input
feature shape to have rank at least 2; on success the update MLP and the
`eps` parameter are allocated.  An unknown dimension of the host
framework's shape object is `none`. -/
def GINConv.buildCheck (v : GINAttrs) (input_shape : List (Option ℕ)) :
    Except String (List MLPLayerSpec × EpsParam) :=
  if 2 ≤ input_shape.length then .ok (buildMLPSpec v, buildEps v.epsilon)
  else .error "AssertionError"

/-- Modelled from the spec: the deferred-build lifecycle of §4.2 is
enforced by the host framework's layer machinery around `GINConv.build`,
which is not under `src/`.  A layer is either uninitialized (no
parameters allocated) or built at a fixed input feature dimensionality. -/
inductive BuildState where
  | uninitialized
  | builtAt (din : ℕ)
deriving DecidableEq

/-- The shape-mismatch condition raised when a call's feature
dimensionality disagrees with the build-time dimensionality. -/
structure ShapeMismatch where
  expected : ℕ
  got : ℕ
deriving DecidableEq

/-- Modelled from the spec: one forward invocation observed at input
feature dimensionality `d`.  The first call builds the layer at `d`;
every later call succeeds exactly when its dimensionality equals the
build-time one and otherwise fails with a `ShapeMismatch`. -/
def forwardStep : BuildState → ℕ → Except ShapeMismatch BuildState
  | .uninitialized, d => .ok (.builtAt d)
  | .builtAt d0, d => if d = d0 then .ok (.builtAt d0) else .error ⟨d0, d⟩

/-- Parameter values supplied by the host framework's initializers for
the dense layers of the update MLP: kernel entry `(layer, j, k)` and
bias entry `(layer, k)`. -/
structure MLPParams where
  kernel : ℕ → ℕ → ℕ → ℚ
  bias : ℕ → ℕ → ℚ

/-- The typed update MLP allocated by `GINConv.build`, with parameter
values drawn from `θ` and activation objects interpreted by `actI`; a
freshly built batch-normalization step is the identity affine map
(scale one, shift zero). -/
def mkMLP (θ : MLPParams) (actI : ActFun → ℚ → ℚ) (mact : ActFun)
    (bn : Bool) (outAct : ActFun) (ub : Bool) (c : ℕ) :
    List ℕ → (din : ℕ) → ℕ → MLP din c
  | [], _, level =>
      .output ⟨fun j k => θ.kernel level j.val k.val,
        fun k => θ.bias level k.val, ub, actI outAct⟩
  | h :: rest, _, level =>
      .hidden ⟨fun j k => θ.kernel level j.val k.val,
          fun k => θ.bias level k.val, true, actI mact⟩
        (if bn then some ⟨fun _ => 1, fun _ => 0⟩ else none)
        (mkMLP θ actI mact bn outAct ub c rest h (level + 1))

/-- The built layer `GINConv.build` produces from the stored attributes
at input feature dimensionality `din`. -/
def GINConv.buildSem (v : GINAttrs) (θ : MLPParams)
    (actI : ActFun → ℚ → ℚ) (din : ℕ) : GINConvBuilt din v.channels :=
  ⟨mkMLP θ actI v.mlp_activation v.mlp_batchnorm v.activation v.use_bias
      v.channels v.mlp_hidden din 0,
    (buildEps v.epsilon).value⟩

/-- The forward call on an input whose feature dimensionality may differ
from the build-time dimensionality: the dense kernels of the built MLP
have fixed shape, so the call goes through exactly when the input's last
dimension equals the build-time dimensionality. -/
def GINConv.callChecked {n d din c : ℕ} (g : GINConvBuilt din c)
    (x : Fin n → Fin d → ℚ) (edges : List (Fin n × Fin n)) :
    Option (Fin n → Fin c → ℚ) :=
  if h : d = din then
    some (GINConv.call g (fun i k => x i (Fin.cast h.symm k)) edges)
  else none

/-- The forward pass together with the layer state it leaves behind:
`GINConv.call` reads `mlp` and `eps` and assigns neither, so the state
after the call is the state before it. -/
def GINConv.callS {n din c : ℕ} (g : GINConvBuilt din c)
    (x : Fin n → Fin din → ℚ) (edges : List (Fin n × Fin n)) :
    (Fin n → Fin c → ℚ) × GINConvBuilt din c :=
  (GINConv.call g x edges, g)

/-- The constructor arguments of the repository's own test configuration
(tests/test_layers/convolutional/test_gin_conv.py): 8 channels, the relu
activation, one hidden layer of 16 units. -/
def testArgs : GINArgs :=
  { channels := 8
    activation := .name "relu"
    mlp_hidden := some [16] }

/-- The instance the test configuration constructs. -/
def testLayerAttrs : GINAttrs := GINConv.init testArgs

/-- A small built layer used by concrete evaluations: identity update
transform on one feature, fixed `eps = 0`. -/
def wLayer : GINConvBuilt 1 1 := ⟨idMLP 1, 0⟩

/-- A concrete two-node feature tensor with one feature per node. -/
def wX : Fin 2 → Fin 1 → ℚ := fun i _ => if i = 0 then 2 else 5

/-- A concrete sparse adjacency on two nodes with the single entry
(0, 1). -/
def wEdges : List (Fin 2 × Fin 2) := [(0, 1)]

/-- The same sparse adjacency as `wEdges` with its entries listed in
another order, preceded by nothing else being different. -/
def wEdgesTwo : List (Fin 2 × Fin 2) := [(1, 0), (0, 1)]

/-- A permutation of `wEdgesTwo`. -/
def wEdgesTwoPerm : List (Fin 2 × Fin 2) := [(0, 1), (1, 0)]

/-- The dense adjacency on two nodes whose entry set is exactly
`wEdges`. -/
def wA : Fin 2 → Fin 2 → ℚ := fun i j => if i = 0 ∧ j = 1 then 1 else 0

/-- Concrete parameter values for a built update MLP: all kernel entries
one, all biases zero. -/
def wParams : MLPParams := ⟨fun _ _ _ => 1, fun _ _ => 0⟩

/-- A concrete interpretation of activation objects: every activation
read as the identity function. -/
def wActI : ActFun → ℚ → ℚ := fun _ t => t

/-- An instance constructed with every argument at its default except
`channels`: in particular `mlp_hidden` is absent. -/
def emptyHiddenAttrs : GINAttrs := GINConv.init { channels := 8 }

theorem idDense_apply {d : ℕ} (v : Fin d → ℚ) : (idDense d).apply v = v := by
  funext k
  simp [idDense, DenseLayer.apply, mul_ite, Finset.sum_ite_eq]

theorem idMLP_apply {d : ℕ} (v : Fin d → ℚ) : (idMLP d).apply v = v := by
  simpa [idMLP, MLP.apply] using idDense_apply v

/-- C2: with 5 nodes of feature dimension 3, sparse adjacency entries
(0,1), (1,0), (1,2), (3,3), sum aggregation, identity update transform
and `epsilon = 0`, the forward call yields for node 1 the value
`feature 1 + feature 0 + feature 2`, and for node 4 (no incident
entries) exactly `feature 4`. -/
theorem ginconv_scenario (x : Fin 5 → Fin 3 → ℚ) :
    (∀ k, GINConv.call scenarioLayer x scenarioEdges 1 k =
      x 1 k + x 0 k + x 2 k) ∧
    (∀ k, GINConv.call scenarioLayer x scenarioEdges 4 k = x 4 k) := by
  refine ⟨fun k => ?_, fun k => ?_⟩
  · simp [GINConv.call, scenarioLayer, idMLP_apply, propagate, scenarioEdges,
      List.filter, List.sum]
    ring
  · simp [GINConv.call, scenarioLayer, idMLP_apply, propagate, scenarioEdges,
      List.filter, List.sum]

theorem propagate_eq_sum {n d : ℕ} (x : Fin n → Fin d → ℚ)
    (edges : List (Fin n × Fin n)) (hnd : edges.Nodup) (i : Fin n)
    (k : Fin d) :
    propagate x edges i k = ∑ j ∈ neighborFinset edges i, x j k := by
  have hmap : ((edges.filter (fun e => e.1 = i)).map Prod.snd).Nodup := by
    refine (hnd.filter _).map_on ?_
    intro a ha b hb hab
    have ha2 : a.1 = i := by simpa using (List.mem_filter.mp ha).2
    have hb2 : b.1 = i := by simpa using (List.mem_filter.mp hb).2
    exact Prod.ext (ha2.trans hb2.symm) hab
  calc propagate x edges i k
      = ((edges.filter (fun e => e.1 = i)).map (fun e => x e.2 k)).sum := rfl
    _ = (((edges.filter (fun e => e.1 = i)).map Prod.snd).map
          (fun j => x j k)).sum := by rw [List.map_map]; rfl
    _ = ∑ j ∈ neighborFinset edges i, x j k :=
        (List.sum_toFinset _ hmap).symm

/-- C1: for every built GINConv layer and valid input, the forward call
returns for each node `i` the update MLP applied to
`(1 + eps) * feature i` plus the sum of the features of the neighbors
of `i`. -/
theorem ginconv_call_neighbors {n din c : ℕ} (g : GINConvBuilt din c)
    (x : Fin n → Fin din → ℚ) (edges : List (Fin n × Fin n))
    (hnd : edges.Nodup) (i : Fin n) :
    GINConv.call g x edges i =
      g.mlp.apply (fun k =>
        (1 + g.eps) * x i k + ∑ j ∈ neighborFinset edges i, x j k) := by
  have hco : (fun k => (1 + g.eps) * x i k + propagate x edges i k)
      = (fun k => (1 + g.eps) * x i k + ∑ j ∈ neighborFinset edges i, x j k) := by
    funext k
    rw [propagate_eq_sum x edges hnd i k]
  show g.mlp.apply (fun k => (1 + g.eps) * x i k + propagate x edges i k) = _
  rw [hco]

theorem ginconv_call_neighbors_witness :
    wEdges.Nodup ∧
    GINConv.call wLayer wX wEdges 0 =
      wLayer.mlp.apply (fun k =>
        (1 + wLayer.eps) * wX 0 k + ∑ j ∈ neighborFinset wEdges 0, wX j k) :=
  ⟨by decide, ginconv_call_neighbors wLayer wX wEdges (by decide) 0⟩

theorem propagate_perm {n d : ℕ} (x : Fin n → Fin d → ℚ)
    {e1 e2 : List (Fin n × Fin n)} (h : e1.Perm e2) :
    propagate x e1 = propagate x e2 := by
  funext i k
  exact List.Perm.sum_eq ((h.filter _).map _)

/-- C7: permuting the listed order of the sparse adjacency entries does
not change the aggregated message of any node, hence not the forward
call's output. -/
theorem ginconv_call_edge_order {n din c : ℕ} (g : GINConvBuilt din c)
    (x : Fin n → Fin din → ℚ) {e1 e2 : List (Fin n × Fin n)}
    (h : e1.Perm e2) :
    propagate x e1 = propagate x e2 ∧
    GINConv.call g x e1 = GINConv.call g x e2 := by
  refine ⟨propagate_perm x h, ?_⟩
  unfold GINConv.call
  rw [propagate_perm x h]

theorem ginconv_call_edge_order_witness :
    wEdgesTwo.Perm wEdgesTwoPerm ∧
    (propagate wX wEdgesTwo = propagate wX wEdgesTwoPerm ∧
      GINConv.call wLayer wX wEdgesTwo = GINConv.call wLayer wX wEdgesTwoPerm) :=
  ⟨by decide, ginconv_call_edge_order wLayer wX (by decide)⟩

/-- C10: on a binary dense adjacency, the batch-mode forward pass of
`GINConvBatch.call` equals the sparse message-passing forward pass of
`GINConv.call` on the corresponding edge list: the two paths compute the
same function `mlp ((1 + eps) * x + A ⬝ x)`. -/
theorem ginconvbatch_refines_ginconv {n din c : ℕ} (g : GINConvBuilt din c)
    (x : Fin n → Fin din → ℚ) (a : Fin n → Fin n → ℚ)
    (edges : List (Fin n × Fin n)) (hnd : edges.Nodup)
    (hbin : ∀ i j, a i j = 0 ∨ a i j = 1)
    (hmem : ∀ i j, (i, j) ∈ edges ↔ a i j = 1) :
    GINConvBatch.call g x a = GINConv.call g x edges := by
  funext i
  have hmemN : ∀ j, j ∈ neighborFinset edges i ↔ a i j = 1 := by
    intro j
    rw [neighborFinset, List.mem_toFinset, List.mem_map]
    constructor
    · rintro ⟨e, he, rfl⟩
      have h1 : e ∈ edges := (List.mem_filter.mp he).1
      have h2 : e.1 = i := by simpa using (List.mem_filter.mp he).2
      exact (hmem i e.2).mp (by rw [← h2]; exact h1)
    · intro hj
      exact ⟨(i, j), List.mem_filter.mpr ⟨(hmem i j).mpr hj, by simp⟩, rfl⟩
  have hdot : modal_dot a x i = propagate x edges i := by
    funext k
    rw [propagate_eq_sum x edges hnd i k, modal_dot]
    have hsplit : ∀ j : Fin n, a i j * x j k =
        if j ∈ neighborFinset edges i then x j k else 0 := by
      intro j
      rcases hbin i j with h0 | h1
      · have hnot : j ∉ neighborFinset edges i := by
          intro hj
          rw [(hmemN j).mp hj] at h0
          norm_num at h0
        rw [h0, if_neg hnot, zero_mul]
      · rw [h1, if_pos ((hmemN j).mpr h1), one_mul]
    rw [Finset.sum_congr rfl (fun j _ => hsplit j), Finset.sum_ite_mem,
      Finset.univ_inter]
  show g.mlp.apply (fun k => (1 + g.eps) * x i k + modal_dot a x i k) = _
  rw [hdot]
  rfl

theorem ginconvbatch_refines_ginconv_witness :
    wEdges.Nodup ∧ (∀ i j, wA i j = 0 ∨ wA i j = 1) ∧
    (∀ i j, (i, j) ∈ wEdges ↔ wA i j = 1) ∧
    GINConvBatch.call wLayer wX wA = GINConv.call wLayer wX wEdges :=
  ⟨by decide, by decide, by decide,
    ginconvbatch_refines_ginconv wLayer wX wA wEdges (by decide) (by decide)
      (by decide)⟩

/-- C4 counterexample: for the repository's own test configuration
(channels 8, activation relu, one hidden layer of 16 units),
reconstructing an instance from the mapping returned by the `config`
property does not restore the `activation` constructor argument: the
mapping has no entry for it, so the rebuilt instance falls back to the
default (linear) activation and is not identical to the original. -/
theorem ginconv_config_not_sufficient :
    testLayerAttrs.activation = ActFun.resolved "relu" ∧
    (reconstruct (GINConv.config testLayerAttrs)).activation =
      ActFun.resolved "linear" ∧
    reconstruct (GINConv.config testLayerAttrs) ≠ testLayerAttrs := by
  refine ⟨rfl, rfl, ?_⟩
  decide

/-- C4 (amended): reconstructing an instance from the `config` mapping
restores exactly the five GIN-specific constructor arguments (channels,
epsilon, mlp_hidden, mlp_activation, mlp_batchnorm); the remaining
constructor arguments are absent from the mapping. -/
theorem ginconv_config_roundtrip (v : GINAttrs) :
    (reconstruct (GINConv.config v)).channels = v.channels ∧
    (reconstruct (GINConv.config v)).epsilon = v.epsilon ∧
    (reconstruct (GINConv.config v)).mlp_hidden = v.mlp_hidden ∧
    (reconstruct (GINConv.config v)).mlp_activation = v.mlp_activation ∧
    (reconstruct (GINConv.config v)).mlp_batchnorm = v.mlp_batchnorm := by
  refine ⟨rfl, rfl, ?_, rfl, rfl⟩
  show (match some v.mlp_hidden with
    | none => ([] : List ℕ)
    | some l => if l.isEmpty then [] else l) = v.mlp_hidden
  cases v.mlp_hidden <;> simp

/-- C5: on a valid input (feature dimensionality matching the build-time
one) the forward call succeeds and its output has the same node count
`n` as the input features and last dimension equal to the configured
`channels`. -/
theorem ginconv_output_shape (v : GINAttrs) (θ : MLPParams)
    (actI : ActFun → ℚ → ℚ) {n d din : ℕ} (x : Fin n → Fin d → ℚ)
    (edges : List (Fin n × Fin n)) (h : d = din) :
    ∃ y : Fin n → Fin v.channels → ℚ,
      GINConv.callChecked (GINConv.buildSem v θ actI din) x edges = some y := by
  subst h
  exact ⟨_, by rw [GINConv.callChecked, dif_pos rfl]⟩

theorem ginconv_output_shape_witness :
    (1 : ℕ) = 1 ∧
    ∃ y : Fin 2 → Fin testLayerAttrs.channels → ℚ,
      GINConv.callChecked (GINConv.buildSem testLayerAttrs wParams wActI 1)
        wX wEdges = some y :=
  ⟨rfl, ginconv_output_shape testLayerAttrs wParams wActI wX wEdges rfl⟩

/-- C3: the layer lifecycle has exactly the two states `uninitialized`
and `builtAt din`; the first forward invocation transitions to the built
state at the observed feature dimensionality, a matching later call
succeeds without transitioning again, and a later call at a different
dimensionality fails with a `ShapeMismatch`. -/
theorem ginconv_build_lifecycle (d d0 : ℕ) (h : d ≠ d0) :
    forwardStep .uninitialized d = .ok (.builtAt d) ∧
    forwardStep (.builtAt d0) d0 = .ok (.builtAt d0) ∧
    forwardStep (.builtAt d0) d = .error ⟨d0, d⟩ := by
  refine ⟨rfl, ?_, ?_⟩
  · rw [forwardStep, if_pos rfl]
  · rw [forwardStep, if_neg h]

theorem ginconv_build_lifecycle_witness :
    (3 : ℕ) ≠ 2 ∧
    (forwardStep .uninitialized 3 = .ok (.builtAt 3) ∧
      forwardStep (.builtAt 2) 2 = .ok (.builtAt 2) ∧
      forwardStep (.builtAt 2) 3 = .error ⟨2, 3⟩) :=
  ⟨by decide, ginconv_build_lifecycle 3 2 (by decide)⟩

/-- C6: building with an absent epsilon allocates `eps` as a learned
scalar parameter starting at its zeros-initialized value; building with
a numeric epsilon keeps `eps` as that fixed constant; and the forward
call leaves the layer state, in particular `eps`, unchanged. -/
theorem ginconv_eps_modes :
    buildEps none = .learned 0 ∧
    (∀ v : ℚ, buildEps (some v) = .fixed v ∧ (buildEps (some v)).value = v) ∧
    (∀ (n din c : ℕ) (g : GINConvBuilt din c) (x : Fin n → Fin din → ℚ)
      (edges : List (Fin n × Fin n)),
      (GINConv.callS g x edges).2 = g ∧ (GINConv.callS g x edges).2.eps = g.eps) :=
  ⟨rfl, fun _ => ⟨rfl, rfl⟩, fun _ _ _ _ _ _ => ⟨rfl, rfl⟩⟩

theorem ginFoldAux (mact : ActFun) (bn : Bool) (l : List ℕ)
    (acc : List MLPLayerSpec) :
    l.foldl (fun acc h =>
      let acc2 := acc ++ [MLPLayerSpec.dense h mact true]
      if bn then acc2 ++ [MLPLayerSpec.batchnorm] else acc2) acc
    = acc ++ l.flatMap (fun h =>
        MLPLayerSpec.dense h mact true ::
          (if bn then [MLPLayerSpec.batchnorm] else [])) := by
  induction l generalizing acc with
  | nil => simp
  | cons h rest ih =>
    rw [List.foldl_cons, ih]
    cases bn <;> simp

/-- C8: the update MLP built by `GINConv.build` is, in order, one dense
layer per entry of `mlp_hidden` (each with `mlp_activation` and each
followed by a batch-normalization step exactly when `mlp_batchnorm` is
set), then the output dense layer with the configured `channels`, the
layer's activation and its `use_bias`; normalization never follows the
output layer, and with no hidden sizes the MLP is the output layer
alone. -/
theorem ginconv_mlp_structure (v : GINAttrs) :
    buildMLPSpec v =
      v.mlp_hidden.flatMap (fun h =>
        MLPLayerSpec.dense h v.mlp_activation true ::
          (if v.mlp_batchnorm then [MLPLayerSpec.batchnorm] else []))
        ++ [MLPLayerSpec.dense v.channels v.activation v.use_bias] ∧
    (v.mlp_hidden = [] →
      buildMLPSpec v =
        [MLPLayerSpec.dense v.channels v.activation v.use_bias]) := by
  constructor
  · rw [buildMLPSpec, ginFoldAux]
    simp
  · intro hempty
    rw [buildMLPSpec, hempty]
    simp

/-- C9: building fails by assertion on every input feature shape of rank
0 or 1, and succeeds (the assertion never fires) on every shape of rank
2 and of rank 3. -/
theorem ginconv_build_rank (v : GINAttrs) (s : List (Option ℕ)) :
    (s.length < 2 → GINConv.buildCheck v s = .error "AssertionError") ∧
    (s.length = 2 ∨ s.length = 3 →
      GINConv.buildCheck v s = .ok (buildMLPSpec v, buildEps v.epsilon)) := by
  constructor
  · intro hlt
    rw [GINConv.buildCheck, if_neg (by omega)]
  · intro hr
    rw [GINConv.buildCheck, if_pos (by omega)]

theorem ginconv_build_rank_witness :
    GINConv.buildCheck testLayerAttrs [none] = .error "AssertionError" ∧
    GINConv.buildCheck testLayerAttrs [none, some 4] =
      .ok (buildMLPSpec testLayerAttrs, buildEps testLayerAttrs.epsilon) :=
  ⟨(ginconv_build_rank testLayerAttrs [none]).1 (by decide),
    (ginconv_build_rank testLayerAttrs [none, some 4]).2 (Or.inl rfl)⟩

theorem ginconv_mlp_structure_witness :
    emptyHiddenAttrs.mlp_hidden = [] ∧
    buildMLPSpec emptyHiddenAttrs =
      [MLPLayerSpec.dense emptyHiddenAttrs.channels emptyHiddenAttrs.activation
        emptyHiddenAttrs.use_bias] :=
  ⟨rfl, (ginconv_mlp_structure emptyHiddenAttrs).2 rfl⟩
